import Mathlib

/-!
Shallow embedding of the VISUM 2022 hands-on notebook
(notebooks/visum-2022-handson-generative-models.ipynb) and proofs about it.

The notebook wires external libraries (RDKit, paccmann, GT4SD, torch) together.
External calls are modelled as components of explicit environment records
(`ChemEnv`, `DecoderModel`) or as shape-level models (`Tensor`); every fallible
external call returns `Option`/`Except`, where `none`/`error` stands for a
raised exception.  The notebook's own code (the metric wrappers, the evaluation
loop, the filters, the decoding loop, the protein-string load) is translated
statement by statement.
-/

set_option maxRecDepth 8192

namespace Visum

/-- Molecules parsed by `Chem.MolFromSmiles` are opaque handles; we identify a
parsed molecule with its source text. -/
abbrev Mol := String

/-- Environment of external chemistry / prediction calls used by the notebook.
Each callable that can raise an exception is modelled as returning `Option`:
`none` is a raised exception.  `molFromSmiles` returns `none` when the parse
fails (RDKit returns `None`) or raises.  `affinity` is the external critic
score of a ligand against a protein target. -/
structure ChemEnv where
  molFromSmiles : String → Option Mol
  qed : Option Mol → Option ℚ
  esol : Option Mol → Option ℚ
  scscore : Option Mol → Option ℚ
  molwt : Option Mol → Option ℚ
  tox : String → Option ℚ
  affinity : String → String → ℚ

/-- The literal ACE2 protein string pasted into cell ae81d0e6 (verbatim,
including the leading and trailing newline of the triple-quoted literal). -/
def protein_string : String := "
MSSSSWLLLSLVAVTAAQSTIEEQAKTFLDKFNHEAEDLFYQSSLASWNYNTNITEENVQ
NMNNAGDKWSAFLKEQSTLAQMYPLQEIQNLTVKLQLQALQQNGSSVLSEDKSKRLNTIL
NTMSTIYSTGKVCNPDNPQECLLLEPGLNEIMANSLDYNERLWAWESWRSEVGKQLRPLY
EEYVVLKNEMARANHYEDYGDYWRGDYEVNGVDGYDYSRGQLIEDVEHTFEEIKPLYEHL
HAYVRAKLMNAYPSYISPIGCLPAHLLGDMWGRFWTNLYSLTVPFGQKPNIDVTDAMVDQ
AWDAQRIFKEAEKFFVSVGLPNMTQGFWENSMLTDPGNVQKAVCHPTAWDLGKGDFRILM
CTKVTMDDFLTAHHEMGHIQYDMAYAAQPFLLRNGANEGFHEAVGEIMSLSAATPKHLKS
IGLLSPDFQEDNETEINFLLKQALTIVGTLPFTYMLEKWRWMVFKGEIPKDQWMKKWWEM
KREIVGVVEPVPHDETYCDPASLFHVSNDYSFIRYYTRTLYQFQFQEALCQAAKHEGPLH
KCDISNSTEAGQKLFNMLRLGKSEPWTLALENVVGAKNMNVRPLLNYFEPLFTWLKDQNK
NSFVGWSTDWSPYADQSIKVRISLKSALGDKAYEWNDNEMYLFRSSVAYAMRQYFLKVKN
QMILFGEEDVRVANLKPRISFNFFVTAPKNVSDIIPRTEVEKAIRMSRSRINDAFRLNDN
SLEFLGIQPTLGPPNQPPVSIWLIVFGVVMGVIVVGIVILIFTGIRDRKKKNKARSGENP
YASIDISKGENNPGFQNTDDVQTSF
"

/-- Cell ae81d0e6: target_protein = join of filter(str.isalpha, list(string)). -/
def target_protein : String := String.mk (protein_string.data.filter Char.isAlpha)

/-- The 20-letter amino-acid alphabet (standard one-letter codes). -/
def amino_acid_alphabet : String := "ACDEFGHIKLMNPQRSTVWY"

/-- Cell d6339ef8: get_drug_likeness wraps Chem.QED.qed in try/except and
returns 0.0 on any exception. -/
def get_drug_likeness (env : ChemEnv) (mol : Option Mol) : ℚ :=
  match env.qed mol with
  | some v => v
  | none => 0

/-- Configuration object built by `AffinityPredictor(protein_targets=..., ligands=...)`. -/
structure AffinityPredictorConfig where
  protein_targets : List String
  ligands : List String

/-- Model of the external call `list(PaccMann(config).sample(k))`: the sampler
yields exactly `k` predictions, the i-th being the critic score of the i-th
protein-target / ligand pair of the configuration. -/
def paccmann_sample (env : ChemEnv) (config : AffinityPredictorConfig) (k : ℕ) : List ℚ :=
  (List.range k).map (fun i =>
    env.affinity (config.protein_targets.getD i "") (config.ligands.getD i ""))

/-- Cell d6339ef8, get_affinity: the value `l` after the `if l == 1` patch
(duplicating the protein target when there is a single ligand). -/
def affinity_l (strings : List String) : ℕ :=
  if strings.length = 1 then 2 else strings.length

/-- Cell d6339ef8, get_affinity: the number of scores requested from the sampler. -/
def affinity_out_l (strings : List String) : ℕ :=
  if strings.length = 1 then 1 else strings.length

/-- Cell d6339ef8, get_affinity: the predictor configuration, built with the
(protein-duplicated) target list and the ligand strings unchanged. -/
def affinity_config (strings : List String) : AffinityPredictorConfig :=
  ⟨List.replicate (affinity_l strings) target_protein, strings⟩

/-- Cell d6339ef8: get_affinity(strings). -/
def get_affinity (env : ChemEnv) (strings : List String) : List ℚ :=
  paccmann_sample env (affinity_config strings) (affinity_out_l strings)

/-- The per-molecule metric loop of cell 94bc9874: for each molecule, parse it
and append drug-likeness, solubility, synthesizability, molecular weight and
toxicity to the five lists.  Only get_drug_likeness is guarded; an exception
(`none`) from any other metric propagates (`Except.error`). -/
def evaluateMetrics (env : ChemEnv) :
    List String → Except Unit (List ℚ × List ℚ × List ℚ × List ℚ × List ℚ)
  | [] => Except.ok ([], [], [], [], [])
  | molecule :: rest =>
    let mol := env.molFromSmiles molecule
    let dl := get_drug_likeness env mol
    match env.esol mol with
    | none => Except.error ()
    | some sol =>
      match env.scscore mol with
      | none => Except.error ()
      | some syn =>
        match env.molwt mol with
        | none => Except.error ()
        | some mw =>
          match env.tox molecule with
          | none => Except.error ()
          | some tx =>
            match evaluateMetrics env rest with
            | Except.error e => Except.error e
            | Except.ok (dls, sols, syns, mws, txs) =>
              Except.ok (dl :: dls, sol :: sols, syn :: syns, mw :: mws, tx :: txs)

/-- The paccmann_rl_results dictionary of cell 94bc9874. -/
structure Results where
  drug_likeness : List ℚ
  solubility : List ℚ
  synthesizability : List ℚ
  molecular_weight : List ℚ
  toxicity : List ℚ
  affinity : List ℚ

/-- Cell 94bc9874 as a whole: run the metric loop over the sampled molecules,
then compute the affinity list and build the results dictionary.  An uncaught
exception anywhere yields `Except.error` (the cell dies, no dictionary). -/
def evaluateAll (env : ChemEnv) (molecules : List String) : Except Unit Results :=
  match evaluateMetrics env molecules with
  | Except.error e => Except.error e
  | Except.ok (dls, sols, syns, mws, txs) =>
    Except.ok ⟨dls, sols, syns, mws, txs, get_affinity env molecules⟩

/-- Cell b4f60ed9: threshold = 0.75. -/
def threshold : ℚ := 0.75

/-- Cell b4f60ed9: len([qed for qed in drug_likeness if qed >= threshold]). -/
def number_of_potential_molecules (drug_likeness : List ℚ) : ℕ :=
  (drug_likeness.filter (fun qed => threshold ≤ qed)).length

/-- Cell d0673d1f: the parse loop — for each SMILES string,
molecules.append(Chem.MolFromSmiles(...)), with None appended in its place
when the parse raises (and MolFromSmiles itself returns None on failure). -/
def parse_molecules (env : ChemEnv) (smiles : List String) : List (Option Mol) :=
  smiles.map (fun sm => env.molFromSmiles sm)

/-- Inner loop of remove_none_and_duplicate (cell d0673d1f), carrying the
`pool` and `result` lists exactly as the Python code does.  Note the source
never appends to `pool`; the embedding reproduces that faithfully. -/
def removeLoop {α : Type} [DecidableEq α] (pool result : List (Option α)) :
    List (Option α) → List (Option α)
  | [] => result
  | mol :: rest =>
    if mol = none then removeLoop pool result rest
    else if mol ∈ pool then removeLoop pool result rest
    else removeLoop pool (result ++ [mol]) rest

/-- Cell d0673d1f: remove_none_and_duplicate(seq), with pool = [] and
result = [] initially. -/
def remove_none_and_duplicate {α : Type} [DecidableEq α]
    (seq : List (Option α)) : List (Option α) :=
  removeLoop [] [] seq

/-- Cell ee963759: valid_indexes = [index for index, molecule in
enumerate(molecules) if molecule is not None]. -/
def valid_indexes {α : Type} (molecules : List (Option α)) : List ℕ :=
  (List.range molecules.length).filter (fun index => (molecules.getD index none).isSome)

/-- Cell ee963759: molecules = [molecules[index] for index in valid_indexes]. -/
def select_molecules {α : Type} (molecules : List (Option α)) : List (Option α) :=
  (valid_indexes molecules).map (fun index => molecules.getD index none)

/-- Cell ee963759: latent_points = latent_points[valid_indexes], modelling the
tensor as its list of rows (one row per latent point). -/
def select_latent_points {β : Type} [Inhabited β]
    (molecules : List (Option Mol)) (latent_points : List β) : List β :=
  (valid_indexes molecules).map (fun index => latent_points.getD index default)

/-! ## The manual token-by-token decoding loop (cells f7938e30, b675b047, 83ea35ed) -/

abbrev Token := ℕ

/-- Cell f7938e30: batch_size = 1. -/
def batch_size : ℕ := 1

/-- Cell f7938e30: generate_len = 100. -/
def generate_len : ℕ := 100

/-- Model of the external decoder plus search strategy: one call bundles
`decoder(input_token, hidden, stack)`, `decoder.output_layer`, and
`search.step(logits)`, returning the sampled token and the new hidden and
stack states.  `H` and `S` are the opaque state types of the external model. -/
structure DecoderModel (H S : Type) where
  next : Token → H → S → Token × H × S

/-- State of the decoding loop of cell 83ea35ed: the current input token, the
opaque decoder states, the generated sequence (single batch row), the
molecules_numerical accumulator, and whether the loop has broken out. -/
structure LoopState (H S : Type) where
  inputToken : Token
  hidden : H
  stack : S
  generatedSeq : List Token
  molecules_numerical : List (List Token)
  stopped : Bool

/-- One iteration of the for-loop of cell 83ea35ed: sample a token, append it
to generated_seq; if batch_size == 1 and the token is the end token, break
(before the append to molecules_numerical); otherwise append the current
sequence extended with an end token to molecules_numerical.  A stopped state
is left unchanged (the loop body no longer runs after the break). -/
def decodeIter {H S : Type} (d : DecoderModel H S) (endToken : Token)
    (batchSize : ℕ) (st : LoopState H S) : LoopState H S :=
  if st.stopped then st else
  match d.next st.inputToken st.hidden st.stack with
  | (top, h, s) =>
    let seq := st.generatedSeq ++ [top]
    if batchSize = 1 ∧ top = endToken then
      { inputToken := top, hidden := h, stack := s, generatedSeq := seq,
        molecules_numerical := st.molecules_numerical, stopped := true }
    else
      { inputToken := top, hidden := h, stack := s, generatedSeq := seq,
        molecules_numerical := st.molecules_numerical ++ [seq ++ [endToken]],
        stopped := false }

/-- Initial state before the loop (cell b675b047): generated_seq holds just
the prime token, input_token is the prime token, molecules_numerical = []. -/
def initState {H S : Type} (primeToken : Token) (h0 : H) (s0 : S) : LoopState H S :=
  ⟨primeToken, h0, s0, [primeToken], [], false⟩

/-- State after `i` executions of the loop body of `for idx in range(generate_len)`. -/
def stateAt {H S : Type} (d : DecoderModel H S) (endToken : Token) (batchSize : ℕ)
    (primeToken : Token) (h0 : H) (s0 : S) (i : ℕ) : LoopState H S :=
  (decodeIter d endToken batchSize)^[i] (initState primeToken h0 s0)

/-- The final state of cell 83ea35ed: generate_len iterations (a break freezes
the state, so iterating past it is the identity). -/
def decodeLoop {H S : Type} (d : DecoderModel H S) (endToken : Token) (batchSize : ℕ)
    (primeToken : Token) (h0 : H) (s0 : S) : LoopState H S :=
  stateAt d endToken batchSize primeToken h0 s0 generate_len

/-- The token sampled by `search.step` at iteration `i` (meaningful while the
loop has not yet broken out). -/
def sampledAt {H S : Type} (d : DecoderModel H S) (endToken : Token) (batchSize : ℕ)
    (primeToken : Token) (h0 : H) (s0 : S) (i : ℕ) : Token :=
  (d.next (stateAt d endToken batchSize primeToken h0 s0 i).inputToken
    (stateAt d endToken batchSize primeToken h0 s0 i).hidden
    (stateAt d endToken batchSize primeToken h0 s0 i).stack).1

/-! ## Shape-level tensor model (cells b675b047 and ee963759) -/

/-- Shape-level model of a torch tensor: a shape together with an entry
function (entries indexed by a multi-index). -/
structure Tensor where
  shape : List ℕ
  entry : List ℕ → ℚ

/-- Model of torch.randn(shape): a fresh tensor of exactly the requested
shape whose entries come from the ambient random source `g` (the fact that
`g` follows a standard normal prior is external to the embedding). -/
def torch_randn (g : List ℕ → ℚ) (shape : List ℕ) : Tensor := ⟨shape, g⟩

/-- Model of Tensor.repeat(reps) for matching ranks: each dimension is
multiplied by the corresponding repetition count and entries tile. -/
def torch_repeat (t : Tensor) (reps : List ℕ) : Tensor :=
  ⟨List.zipWith (fun r dim => r * dim) reps t.shape,
   fun idx => t.entry (List.zipWith (fun i dim => i % dim) idx t.shape)⟩

/-- Cell b675b047: latent_z = torch.randn(1, batch_size, decoder.latent_dim)
then latent_z = latent_z.repeat(decoder.n_layers, 1, 1). -/
def latent_z (g : List ℕ → ℚ) (latentDim nLayers : ℕ) : Tensor :=
  torch_repeat (torch_randn g [1, batch_size, latentDim]) [nLayers, 1, 1]

/-- Cell ee963759: number_of_latent_points = 2048. -/
def number_of_latent_points : ℕ := 2048

/-- Cell ee963759: latent_points = torch.randn(number_of_latent_points,
model.encoder_latent_size, device=model.device). -/
def latent_points (g : List ℕ → ℚ) (encoderLatentSize : ℕ) : Tensor :=
  torch_randn g [number_of_latent_points, encoderLatentSize]

/-! ## Concrete environments used by witnesses and counterexamples -/

/-- Environment in which every external call succeeds (all metrics return a
constant, parsing succeeds, the critic returns 0). -/
def envZero : ChemEnv :=
  { molFromSmiles := fun s => some s
    qed := fun _ => some 1
    esol := fun _ => some 0
    scscore := fun _ => some 0
    molwt := fun _ => some 0
    tox := fun _ => some 0
    affinity := fun _ _ => 0 }

/-- Environment in which the solubility call raises (and the QED call also
raises, exercising the drug-likeness guard). -/
def envEsolFail : ChemEnv :=
  { envZero with esol := fun _ => none, qed := fun _ => none }

/-- Environment in which only the toxicity call raises. -/
def envToxFail : ChemEnv :=
  { envZero with tox := fun _ => none }

/-! ## Helper lemmas -/

/-- The removal loop with an empty pool appends exactly the non-None entries
of its input to the accumulated result. -/
lemma removeLoop_nil_pool {α : Type} [DecidableEq α] (seq : List (Option α)) :
    ∀ result, removeLoop [] result seq = result ++ seq.filter (fun mol => mol.isSome) := by
  induction seq with
  | nil => intro result; simp [removeLoop]
  | cons mol rest ih =>
    intro result
    cases mol with
    | none => simp [removeLoop, ih]
    | some a => simp [removeLoop, ih]

/-- Selecting the entries of a list at the indices whose entry is non-None,
in index order, is the same as filtering out the None entries. -/
lemma select_molecules_eq_filter {α : Type} (molecules : List (Option α)) :
    select_molecules molecules = molecules.filter (fun mol => mol.isSome) := by
  unfold select_molecules valid_indexes
  induction molecules with
  | nil => rfl
  | cons x xs ih =>
    have hcomp : ((fun index => (x :: xs).getD index none) ∘ Nat.succ)
        = (fun index => xs.getD index none) := by
      funext i; simp
    have hcomp2 : ((fun index => ((x :: xs).getD index none).isSome) ∘ Nat.succ)
        = (fun index => (xs.getD index none).isSome) := by
      funext i; simp
    cases hx : x.isSome with
    | false =>
      simp only [List.length_cons, List.range_succ_eq_map, List.filter_cons,
        List.getD_cons_zero, hx, if_false, Bool.false_eq_true, List.filter_map,
        List.map_map, hcomp, hcomp2]
      exact ih
    | true =>
      simp only [List.length_cons, List.range_succ_eq_map, List.filter_cons,
        List.getD_cons_zero, hx, if_true, List.filter_map, List.map_cons,
        List.map_map, hcomp, hcomp2]
      exact congrArg (List.cons x) ih

/-! ## Claims -/

/-- C8: for every input list, remove_none_and_duplicate returns exactly the
input list with the None entries removed and nothing else removed; since the
pool list is never appended to, the duplicate check never fires, so duplicate
non-None entries are all retained. -/
theorem remove_none_and_duplicate_eq_filter {α : Type} [DecidableEq α]
    (seq : List (Option α)) :
    remove_none_and_duplicate seq = seq.filter (fun mol => mol.isSome) := by
  simpa using removeLoop_nil_pool seq []

/-- C2: a failed parse is recorded as None, and the None markers are all
removed before display: remove_none_and_duplicate returns no None entry and
is a sublist (order-preserving) of its input; the valid_indexes filter keeps
exactly the non-None molecules in order, and selects molecules and
latent_points at the same indices, keeping the two lists aligned. -/
theorem none_markers_filtered {α β : Type} [DecidableEq α] [Inhabited β]
    (seq : List (Option α)) (molecules : List (Option Mol)) (lat : List β)
    (env : ChemEnv) (smiles : List String) :
    (∀ mol ∈ remove_none_and_duplicate seq, mol ≠ none) ∧
    (remove_none_and_duplicate seq).Sublist seq ∧
    select_molecules molecules = molecules.filter (fun mol => mol.isSome) ∧
    (∀ (j i : ℕ), (valid_indexes molecules)[j]? = some i →
      (select_molecules molecules)[j]? = some (molecules.getD i none) ∧
      (select_latent_points molecules lat)[j]? = some (lat.getD i default)) ∧
    (∀ i : ℕ, i < smiles.length →
      (parse_molecules env smiles)[i]? = some (env.molFromSmiles (smiles.getD i ""))) := by
  refine ⟨?_, ?_, select_molecules_eq_filter molecules, ?_, ?_⟩
  · intro mol hmol
    rw [remove_none_and_duplicate_eq_filter] at hmol
    rcases List.mem_filter.mp hmol with ⟨-, hsome⟩
    simp only [Option.isSome_iff_exists] at hsome
    rcases hsome with ⟨a, rfl⟩
    exact fun h => Option.noConfusion h
  · rw [remove_none_and_duplicate_eq_filter]
    exact List.filter_sublist seq
  · intro j i hji
    constructor
    · unfold select_molecules
      simp [List.getElem?_map, hji]
    · unfold select_latent_points
      simp [List.getElem?_map, hji]
  · intro i hi
    have h1 : smiles[i]? = some smiles[i] := List.getElem?_eq_getElem hi
    have h2 : smiles.getD i "" = smiles[i] := by simp [List.getD, h1]
    simp [parse_molecules, List.getElem?_map, h1, h2]

/-- C2 witness: on the concrete list [none, some "C"] the only valid index is
1 and the selections agree there; a failing parse leaves a None marker in
place. -/
theorem none_markers_filtered_witness :
    (select_molecules [none, some "C"])[0]? = some (some "C") ∧
    (select_latent_points [none, some "C"] [(5 : ℚ), 7])[0]? = some 7 := by
  have h := (none_markers_filtered ([some 1, none] : List (Option ℕ))
    [none, some "C"] [(5 : ℚ), 7] envZero ["C"]).2.2.2.1 0 1 (by rfl)
  exact ⟨h.1, h.2⟩

/-- C8 witness: duplicate non-None entries are retained (the duplicate check
never fires). -/
theorem remove_none_and_duplicate_witness :
    remove_none_and_duplicate ([some 1, none, some 1] : List (Option ℕ))
      = [some 1, some 1] := by
  rw [remove_none_and_duplicate_eq_filter]
  rfl

/-- C7: the batch of random latent points has shape
(number_of_latent_points, model.encoder_latent_size), and the latent vector
fed to the compound decoder has last dimension decoder.latent_dim, repeated
across decoder.n_layers layers (shape (n_layers, batch_size, latent_dim)). -/
theorem latent_dimensions (g gz : List ℕ → ℚ) (encoderLatentSize latentDim nLayers : ℕ) :
    (latent_points g encoderLatentSize).shape = [number_of_latent_points, encoderLatentSize] ∧
    (latent_z gz latentDim nLayers).shape = [nLayers, batch_size, latentDim] ∧
    (latent_z gz latentDim nLayers).shape.getLast? = some latentDim := by
  refine ⟨rfl, ?_, ?_⟩ <;>
    simp [latent_z, torch_repeat, torch_randn, batch_size, List.getLast?]

/-- C9: for a non-empty list of k ligand strings, get_affinity returns exactly
k scores; in the edge case k = 1 it builds the configuration with the protein
target duplicated to length 2 while passing the single ligand unchanged, yet
requests and returns exactly one score. -/
theorem get_affinity_scores (env : ChemEnv) (strings : List String)
    (_hne : strings ≠ []) :
    (get_affinity env strings).length = strings.length ∧
    (strings.length = 1 →
      (affinity_config strings).protein_targets.length = 2 ∧
      (affinity_config strings).ligands = strings ∧
      affinity_out_l strings = 1 ∧
      get_affinity env strings = [env.affinity target_protein (strings.getD 0 "")]) := by
  constructor
  · unfold get_affinity paccmann_sample affinity_out_l
    by_cases h1 : strings.length = 1 <;> simp [h1]
  · intro h1
    refine ⟨?_, rfl, ?_, ?_⟩
    · simp [affinity_config, affinity_l, h1]
    · simp [affinity_out_l, h1]
    · unfold get_affinity paccmann_sample
      simp [affinity_out_l, affinity_config, affinity_l, h1, List.range_succ,
        List.replicate]

/-- C9 witness: a single ligand yields a single affinity score. -/
theorem get_affinity_scores_witness :
    (get_affinity envZero ["C"]).length = 1 ∧ get_affinity envZero ["C"] = [0] := by
  have h := get_affinity_scores envZero ["C"] (by simp)
  exact ⟨h.1, by rw [(h.2 rfl).2.2.2]; rfl⟩

/-- C6: target_protein is exactly the subsequence of alphabetic characters of
the pasted literal, in original order; the characters removed by the filter
are exactly whitespace (newlines); no whitespace survives; and every character
of target_protein is one of the 20 amino-acid letters. -/
theorem target_protein_load :
    target_protein.data = protein_string.data.filter Char.isAlpha ∧
    target_protein.data.Sublist protein_string.data ∧
    (∀ c ∈ protein_string.data, c.isAlpha ∨ c.isWhitespace) ∧
    (∀ c ∈ target_protein.data, ¬ c.isWhitespace) ∧
    (∀ c ∈ target_protein.data, c ∈ amino_acid_alphabet.data) := by
  have h3 : protein_string.data.all (fun c => c.isAlpha || c.isWhitespace) = true := rfl
  have h4 : target_protein.data.all (fun c => !c.isWhitespace) = true := rfl
  have h5 : target_protein.data.all (fun c => amino_acid_alphabet.data.elem c) = true := rfl
  refine ⟨rfl, ?_, ?_, ?_, ?_⟩
  · have hdata : target_protein.data = protein_string.data.filter Char.isAlpha := rfl
    rw [hdata]
    exact List.filter_sublist protein_string.data
  · intro c hc
    simpa [Bool.or_eq_true] using List.all_eq_true.mp h3 c hc
  · intro c hc
    simpa using List.all_eq_true.mp h4 c hc
  · intro c hc
    exact List.mem_of_elem_eq_true (List.all_eq_true.mp h5 c hc)

/-- C6 witness: the first residue of the loaded target is a member of the
amino-acid alphabet. -/
theorem target_protein_load_witness : 'M' ∈ amino_acid_alphabet.data :=
  target_protein_load.2.2.2.2 'M' (by decide)

/-- If some molecule of the list makes one of the unguarded metric calls
(solubility, synthesizability, molecular weight, toxicity) raise, the metric
loop does not catch it: the whole evaluation propagates the exception. -/
lemma evaluateMetrics_error (env : ChemEnv) :
    ∀ (molecules : List String) (m : String), m ∈ molecules →
      (env.esol (env.molFromSmiles m) = none ∨
       env.scscore (env.molFromSmiles m) = none ∨
       env.molwt (env.molFromSmiles m) = none ∨
       env.tox m = none) →
      evaluateMetrics env molecules = Except.error () := by
  intro molecules
  induction molecules with
  | nil => intro m hm; cases hm
  | cons a rest ih =>
    intro m hm hfail
    simp only [evaluateMetrics]
    cases h1 : env.esol (env.molFromSmiles a) with
    | none => rfl
    | some sol =>
      cases h2 : env.scscore (env.molFromSmiles a) with
      | none => rfl
      | some syn =>
        cases h3 : env.molwt (env.molFromSmiles a) with
        | none => rfl
        | some mw =>
          cases h4 : env.tox a with
          | none => rfl
          | some tx =>
            rcases List.mem_cons.mp hm with rfl | hm2
            · rcases hfail with hf | hf | hf | hf
              · rw [hf] at h1; exact Option.noConfusion h1
              · rw [hf] at h2; exact Option.noConfusion h2
              · rw [hf] at h3; exact Option.noConfusion h3
              · rw [hf] at h4; exact Option.noConfusion h4
            · rw [ih m hm2 hfail]

/-- C1 counterexample: in an environment where the solubility computation
raises an exception, evaluating one generated molecule does not record a 0.0
score for it — the evaluation propagates the exception and produces no
results at all, contradicting the claim that every metric failure is caught
and mapped to 0.0. -/
theorem metric_failure_not_always_caught_cx :
    evaluateAll envEsolFail ["C"] = Except.error () := rfl

/-- C1 (amended): only the drug-likeness metric is guarded — when the QED
computation raises, get_drug_likeness catches it with a broad except clause
and records 0.0; an exception raised by the solubility computation (and
likewise the other unguarded metrics) is caught nowhere and propagates out of
the evaluation loop, which then produces no scores. -/
theorem only_drug_likeness_guarded (env : ChemEnv) :
    (∀ mol, env.qed mol = none → get_drug_likeness env mol = 0) ∧
    (∀ (molecules : List String) (m : String), m ∈ molecules →
      (env.esol (env.molFromSmiles m) = none ∨
       env.scscore (env.molFromSmiles m) = none ∨
       env.molwt (env.molFromSmiles m) = none ∨
       env.tox m = none) →
      evaluateAll env molecules = Except.error ()) := by
  constructor
  · intro mol h
    unfold get_drug_likeness
    rw [h]
  · intro molecules m hm hfail
    unfold evaluateAll
    rw [evaluateMetrics_error env molecules m hm hfail]

/-- C1 witness: with both the QED and the solubility calls raising, the guard
records 0.0 for drug-likeness while the solubility failure kills the
evaluation; a toxicity failure alone likewise kills it. -/
theorem only_drug_likeness_guarded_witness :
    get_drug_likeness envEsolFail (some "C") = 0 ∧
    evaluateAll envEsolFail ["CC"] = Except.error () ∧
    evaluateAll envToxFail ["N"] = Except.error () :=
  ⟨(only_drug_likeness_guarded envEsolFail).1 (some "C") rfl,
    (only_drug_likeness_guarded envEsolFail).2 ["CC"] "CC" (by simp) (Or.inl rfl),
    (only_drug_likeness_guarded envToxFail).2 ["N"] "N" (by simp)
      (Or.inr (Or.inr (Or.inr rfl)))⟩

/-- A successful run of the metric loop produces five lists with one entry
per molecule, the i-th entry being the respective metric of the i-th
molecule (in sampling order). -/
lemma evaluateMetrics_ok (env : ChemEnv) :
    ∀ (molecules : List String) (dls sols syns mws txs : List ℚ),
      evaluateMetrics env molecules = Except.ok (dls, sols, syns, mws, txs) →
      dls.length = molecules.length ∧ sols.length = molecules.length ∧
      syns.length = molecules.length ∧ mws.length = molecules.length ∧
      txs.length = molecules.length ∧
      ∀ i : ℕ, i < molecules.length →
        dls[i]? = some (get_drug_likeness env (env.molFromSmiles (molecules.getD i ""))) ∧
        sols[i]? = env.esol (env.molFromSmiles (molecules.getD i "")) ∧
        syns[i]? = env.scscore (env.molFromSmiles (molecules.getD i "")) ∧
        mws[i]? = env.molwt (env.molFromSmiles (molecules.getD i "")) ∧
        txs[i]? = env.tox (molecules.getD i "") := by
  intro molecules
  induction molecules with
  | nil =>
    intro dls sols syns mws txs h
    simp only [evaluateMetrics] at h
    cases h
    refine ⟨rfl, rfl, rfl, rfl, rfl, ?_⟩
    intro i hi
    exact absurd hi (Nat.not_lt_zero i)
  | cons a rest ih =>
    intro dls sols syns mws txs h
    simp only [evaluateMetrics] at h
    cases h1 : env.esol (env.molFromSmiles a) with
    | none => simp only [h1] at h; exact Except.noConfusion h
    | some sol =>
      simp only [h1] at h
      cases h2 : env.scscore (env.molFromSmiles a) with
      | none => simp only [h2] at h; exact Except.noConfusion h
      | some syn =>
        simp only [h2] at h
        cases h3 : env.molwt (env.molFromSmiles a) with
        | none => simp only [h3] at h; exact Except.noConfusion h
        | some mw =>
          simp only [h3] at h
          cases h4 : env.tox a with
          | none => simp only [h4] at h; exact Except.noConfusion h
          | some tx =>
            simp only [h4] at h
            cases hrest : evaluateMetrics env rest with
            | error e => simp only [hrest] at h; exact Except.noConfusion h
            | ok q =>
              obtain ⟨dls', sols', syns', mws', txs'⟩ := q
              simp only [hrest] at h
              cases h
              obtain ⟨l1, l2, l3, l4, l5, hidx⟩ := ih dls' sols' syns' mws' txs' hrest
              refine ⟨by simp [l1], by simp [l2], by simp [l3], by simp [l4],
                by simp [l5], ?_⟩
              intro i hi
              cases i with
              | zero => simp [h1, h2, h3, h4]
              | succ i =>
                have hi' : i < rest.length := by simpa using hi
                simpa using hidx i hi'

/-- Inverting a successful evaluation cell: the metric loop succeeded with
exactly the lists stored in the results dictionary, and the affinity entry is
the get_affinity output. -/
lemma evaluateAll_ok {env : ChemEnv} {molecules : List String} {r : Results}
    (h : evaluateAll env molecules = Except.ok r) :
    evaluateMetrics env molecules
      = Except.ok (r.drug_likeness, r.solubility, r.synthesizability,
          r.molecular_weight, r.toxicity) ∧
    r.affinity = get_affinity env molecules := by
  unfold evaluateAll at h
  cases hm : evaluateMetrics env molecules with
  | error e => rw [hm] at h; cases h
  | ok q =>
    obtain ⟨dls, sols, syns, mws, txs⟩ := q
    rw [hm] at h
    cases h
    exact ⟨rfl, rfl⟩

/-- get_affinity always returns one score per ligand string. -/
lemma get_affinity_list_length (env : ChemEnv) (strings : List String) :
    (get_affinity env strings).length = strings.length := by
  unfold get_affinity paccmann_sample affinity_out_l
  by_cases h1 : strings.length = 1 <;> simp [h1]

/-- The i-th affinity score is the critic score of the i-th ligand against
the (possibly duplicated) protein target. -/
lemma get_affinity_entry (env : ChemEnv) (strings : List String) (i : ℕ)
    (hi : i < strings.length) :
    (get_affinity env strings)[i]? = some (env.affinity target_protein (strings.getD i "")) := by
  unfold get_affinity paccmann_sample affinity_config affinity_l affinity_out_l
  by_cases h1 : strings.length = 1
  · have hi0 : i = 0 := by omega
    subst hi0
    simp [h1, List.range_succ, List.replicate]
  · rw [List.getElem?_map]
    have : i < strings.length := hi
    simp [h1, List.getElem?_range, this, List.getD, List.getElem?_replicate, hi]

/-- C4: when the evaluation cell completes, the results dictionary maps each
of the six metric names to a list of exactly n scores (n the number of
sampled molecules), the i-th entry of each list being the score of the i-th
generated molecule in sampling order. -/
theorem results_one_score_per_molecule (env : ChemEnv) (molecules : List String)
    (r : Results) (h : evaluateAll env molecules = Except.ok r) :
    r.drug_likeness.length = molecules.length ∧
    r.solubility.length = molecules.length ∧
    r.synthesizability.length = molecules.length ∧
    r.molecular_weight.length = molecules.length ∧
    r.toxicity.length = molecules.length ∧
    r.affinity.length = molecules.length ∧
    ∀ i : ℕ, i < molecules.length →
      r.drug_likeness[i]? = some (get_drug_likeness env (env.molFromSmiles (molecules.getD i ""))) ∧
      r.solubility[i]? = env.esol (env.molFromSmiles (molecules.getD i "")) ∧
      r.synthesizability[i]? = env.scscore (env.molFromSmiles (molecules.getD i "")) ∧
      r.molecular_weight[i]? = env.molwt (env.molFromSmiles (molecules.getD i "")) ∧
      r.toxicity[i]? = env.tox (molecules.getD i "") ∧
      r.affinity[i]? = some (env.affinity target_protein (molecules.getD i "")) := by
  obtain ⟨hmet, haff⟩ := evaluateAll_ok h
  obtain ⟨l1, l2, l3, l4, l5, hidx⟩ := evaluateMetrics_ok env molecules
    r.drug_likeness r.solubility r.synthesizability r.molecular_weight r.toxicity hmet
  refine ⟨l1, l2, l3, l4, l5, by rw [haff]; exact get_affinity_list_length env molecules, ?_⟩
  intro i hi
  obtain ⟨e1, e2, e3, e4, e5⟩ := hidx i hi
  exact ⟨e1, e2, e3, e4, e5, by rw [haff]; exact get_affinity_entry env molecules i hi⟩

/-- C4 witness: a concrete successful evaluation of two molecules gives six
lists of length two with the expected entries. -/
theorem results_one_score_per_molecule_witness :
    (Results.mk [1, 1] [0, 0] [0, 0] [0, 0] [0, 0] [0, 0]).drug_likeness.length = 2 ∧
    (Results.mk [1, 1] [0, 0] [0, 0] [0, 0] [0, 0] [0, 0]).affinity[0]? = some 0 := by
  have h := results_one_score_per_molecule envZero ["C", "N"]
    (Results.mk [1, 1] [0, 0] [0, 0] [0, 0] [0, 0] [0, 0]) rfl
  exact ⟨h.1, (h.2.2.2.2.2.2 0 (by simp)).2.2.2.2.2⟩

/-- C5: the printed summary count equals the number of drug-likeness entries
greater than or equal to the 0.75 threshold, and is at most the number n of
generated molecules. -/
theorem potential_molecule_count (env : ChemEnv) (molecules : List String)
    (r : Results) (h : evaluateAll env molecules = Except.ok r) :
    number_of_potential_molecules r.drug_likeness
      = r.drug_likeness.countP (fun qed => decide (threshold ≤ qed)) ∧
    number_of_potential_molecules r.drug_likeness ≤ molecules.length := by
  constructor
  · unfold number_of_potential_molecules
    rw [List.countP_eq_length_filter]
  · obtain ⟨hmet, -⟩ := evaluateAll_ok h
    obtain ⟨l1, -, -, -, -, -⟩ := evaluateMetrics_ok env molecules
      r.drug_likeness r.solubility r.synthesizability r.molecular_weight r.toxicity hmet
    calc number_of_potential_molecules r.drug_likeness
        ≤ r.drug_likeness.length := List.length_filter_le _ _
      _ = molecules.length := l1

/-- C5 witness: on a concrete successful evaluation, the count is the number
of entries at or above 0.75 and is bounded by the sample size. -/
theorem potential_molecule_count_witness :
    number_of_potential_molecules [1, 1]
      = List.countP (fun qed => decide (threshold ≤ qed)) [1, 1] ∧
    number_of_potential_molecules [1, 1] ≤ 2 := by
  have h := potential_molecule_count envZero ["C", "N"]
    (Results.mk [1, 1] [0, 0] [0, 0] [0, 0] [0, 0] [0, 0]) rfl
  exact ⟨h.1, h.2⟩

/-- A state that has broken out of the loop is a fixed point of the loop body. -/
lemma decodeIter_stopped {H S : Type} (d : DecoderModel H S) (endToken : Token)
    (batchSize : ℕ) (st : LoopState H S) (h : st.stopped = true) :
    decodeIter d endToken batchSize st = st := by
  unfold decodeIter
  rw [h]
  simp

/-- Iterating the loop body on a broken-out state changes nothing. -/
lemma iterate_stopped {H S : Type} (d : DecoderModel H S) (endToken : Token)
    (batchSize : ℕ) (st : LoopState H S) (h : st.stopped = true) :
    ∀ m, (decodeIter d endToken batchSize)^[m] st = st := by
  intro m
  induction m with
  | zero => rfl
  | succ m ih =>
    rw [Function.iterate_succ_apply', ih, decodeIter_stopped d endToken batchSize st h]

/-- Unfolding of one active loop iteration. -/
lemma decodeIter_active {H S : Type} (d : DecoderModel H S) (endToken : Token)
    (batchSize : ℕ) (st : LoopState H S) (h : st.stopped = false) :
    decodeIter d endToken batchSize st =
      if batchSize = 1 ∧ (d.next st.inputToken st.hidden st.stack).1 = endToken then
        ⟨(d.next st.inputToken st.hidden st.stack).1,
         (d.next st.inputToken st.hidden st.stack).2.1,
         (d.next st.inputToken st.hidden st.stack).2.2,
         st.generatedSeq ++ [(d.next st.inputToken st.hidden st.stack).1],
         st.molecules_numerical, true⟩
      else
        ⟨(d.next st.inputToken st.hidden st.stack).1,
         (d.next st.inputToken st.hidden st.stack).2.1,
         (d.next st.inputToken st.hidden st.stack).2.2,
         st.generatedSeq ++ [(d.next st.inputToken st.hidden st.stack).1],
         st.molecules_numerical
           ++ [(st.generatedSeq ++ [(d.next st.inputToken st.hidden st.stack).1]) ++ [endToken]],
         false⟩ := by
  unfold decodeIter
  rw [h]
  rcases hd : d.next st.inputToken st.hidden st.stack with ⟨top, h2, s2⟩
  simp

/-- Each executed (non-broken) iteration appends exactly one token. -/
lemma decodeIter_length {H S : Type} (d : DecoderModel H S) (endToken : Token)
    (batchSize : ℕ) (st : LoopState H S) (h : st.stopped = false) :
    (decodeIter d endToken batchSize st).generatedSeq.length
      = st.generatedSeq.length + 1 := by
  rw [decodeIter_active d endToken batchSize st h]
  by_cases hb : batchSize = 1 ∧ (d.next st.inputToken st.hidden st.stack).1 = endToken <;>
    simp [hb]

/-- After n loop iterations the sequence has grown by at most n tokens. -/
lemma iterate_length_le {H S : Type} (d : DecoderModel H S) (endToken : Token)
    (batchSize : ℕ) :
    ∀ (n : ℕ) (st : LoopState H S),
      ((decodeIter d endToken batchSize)^[n] st).generatedSeq.length
        ≤ st.generatedSeq.length + n := by
  intro n
  induction n with
  | zero => intro st; simp
  | succ n ih =>
    intro st
    rw [Function.iterate_succ_apply']
    have h' := ih st
    cases hs : ((decodeIter d endToken batchSize)^[n] st).stopped with
    | true =>
      rw [decodeIter_stopped d endToken batchSize _ hs]
      omega
    | false =>
      have hlen := decodeIter_length d endToken batchSize _ hs
      omega

/-- C3: the decoding loop runs at most generate_len (100) iterations, each
active iteration appends exactly one token to generated_seq, a break freezes
the state, and the final generated sequence holds at most 1 + generate_len
tokens (the prime token plus at most generate_len sampled tokens). -/
theorem decoding_loop_token_bound {H S : Type} (d : DecoderModel H S)
    (endToken primeToken : Token) (h0 : H) (s0 : S) :
    (∀ st : LoopState H S, st.stopped = false →
      (decodeIter d endToken batch_size st).generatedSeq.length
        = st.generatedSeq.length + 1) ∧
    (∀ st : LoopState H S, st.stopped = true →
      decodeIter d endToken batch_size st = st) ∧
    (decodeLoop d endToken batch_size primeToken h0 s0).generatedSeq.length
      ≤ 1 + generate_len := by
  refine ⟨fun st h => decodeIter_length d endToken batch_size st h,
    fun st h => decodeIter_stopped d endToken batch_size st h, ?_⟩
  have hb := iterate_length_le d endToken batch_size generate_len
    (initState primeToken h0 s0)
  unfold decodeLoop stateAt
  simpa [initState, Nat.add_comm] using hb

/-- Before the first end token is sampled, the loop keeps running and
molecules_numerical holds exactly one entry per completed iteration. -/
lemma loop_invariant {H S : Type} (d : DecoderModel H S) (endToken primeToken : Token)
    (h0 : H) (s0 : S) (j : ℕ)
    (hbefore : ∀ i, i < j → sampledAt d endToken batch_size primeToken h0 s0 i ≠ endToken) :
    ∀ i, i ≤ j →
      (stateAt d endToken batch_size primeToken h0 s0 i).stopped = false ∧
      (stateAt d endToken batch_size primeToken h0 s0 i).molecules_numerical
        = (List.range i).map (fun k =>
            (stateAt d endToken batch_size primeToken h0 s0 (k+1)).generatedSeq
              ++ [endToken]) := by
  intro i
  induction i with
  | zero => intro _; exact ⟨rfl, rfl⟩
  | succ i ih =>
    intro hij
    obtain ⟨hstop, hmols⟩ := ih (Nat.le_of_succ_le hij)
    have hne := hbefore i (Nat.lt_of_succ_le hij)
    have hstep : stateAt d endToken batch_size primeToken h0 s0 (i+1)
        = decodeIter d endToken batch_size
            (stateAt d endToken batch_size primeToken h0 s0 i) := by
      unfold stateAt
      rw [Function.iterate_succ_apply']
    have hcond : ¬ (batch_size = 1 ∧
        (d.next (stateAt d endToken batch_size primeToken h0 s0 i).inputToken
          (stateAt d endToken batch_size primeToken h0 s0 i).hidden
          (stateAt d endToken batch_size primeToken h0 s0 i).stack).1 = endToken) :=
      fun hc => hne hc.2
    have hseq : (stateAt d endToken batch_size primeToken h0 s0 (i+1)).generatedSeq
        = (stateAt d endToken batch_size primeToken h0 s0 i).generatedSeq
          ++ [(d.next (stateAt d endToken batch_size primeToken h0 s0 i).inputToken
                (stateAt d endToken batch_size primeToken h0 s0 i).hidden
                (stateAt d endToken batch_size primeToken h0 s0 i).stack).1] := by
      rw [hstep, decodeIter_active d endToken batch_size _ hstop, if_neg hcond]
    constructor
    · rw [hstep, decodeIter_active d endToken batch_size _ hstop, if_neg hcond]
    · rw [hstep, decodeIter_active d endToken batch_size _ hstop, if_neg hcond]
      show (stateAt d endToken batch_size primeToken h0 s0 i).molecules_numerical
          ++ [((stateAt d endToken batch_size primeToken h0 s0 i).generatedSeq
                ++ [(d.next (stateAt d endToken batch_size primeToken h0 s0 i).inputToken
                      (stateAt d endToken batch_size primeToken h0 s0 i).hidden
                      (stateAt d endToken batch_size primeToken h0 s0 i).stack).1])
              ++ [endToken]] = _
      rw [hmols, List.range_succ, List.map_append, List.map_cons, List.map_nil]
      congr 1
      rw [hseq]

/-- C10: with batch_size = 1, if the token sampled at iteration j (the first
end token) equals the end token, the loop breaks before the append statement:
molecules_numerical holds exactly the sequences of the iterations strictly
before j (one per iteration, j in total), and the final sequence — the one
whose last sampled token is the end token — is never appended to it. -/
theorem early_stop_excludes_final {H S : Type} (d : DecoderModel H S)
    (endToken primeToken : Token) (h0 : H) (s0 : S) (j : ℕ)
    (hj : j < generate_len)
    (hbefore : ∀ i, i < j → sampledAt d endToken batch_size primeToken h0 s0 i ≠ endToken)
    (hstop : sampledAt d endToken batch_size primeToken h0 s0 j = endToken) :
    (decodeLoop d endToken batch_size primeToken h0 s0).stopped = true ∧
    (decodeLoop d endToken batch_size primeToken h0 s0).generatedSeq
      = (stateAt d endToken batch_size primeToken h0 s0 j).generatedSeq ++ [endToken] ∧
    (decodeLoop d endToken batch_size primeToken h0 s0).molecules_numerical
      = (List.range j).map (fun k =>
          (stateAt d endToken batch_size primeToken h0 s0 (k+1)).generatedSeq
            ++ [endToken]) ∧
    (decodeLoop d endToken batch_size primeToken h0 s0).molecules_numerical.length = j := by
  obtain ⟨hstopj, hmolsj⟩ :=
    loop_invariant d endToken primeToken h0 s0 j hbefore j le_rfl
  have htop : (d.next (stateAt d endToken batch_size primeToken h0 s0 j).inputToken
      (stateAt d endToken batch_size primeToken h0 s0 j).hidden
      (stateAt d endToken batch_size primeToken h0 s0 j).stack).1 = endToken := hstop
  have hcond : batch_size = 1 ∧
      (d.next (stateAt d endToken batch_size primeToken h0 s0 j).inputToken
        (stateAt d endToken batch_size primeToken h0 s0 j).hidden
        (stateAt d endToken batch_size primeToken h0 s0 j).stack).1 = endToken :=
    ⟨rfl, htop⟩
  have hstep : stateAt d endToken batch_size primeToken h0 s0 (j+1)
      = decodeIter d endToken batch_size
          (stateAt d endToken batch_size primeToken h0 s0 j) := by
    unfold stateAt
    rw [Function.iterate_succ_apply']
  have hstopped1 : (stateAt d endToken batch_size primeToken h0 s0 (j+1)).stopped = true := by
    rw [hstep, decodeIter_active d endToken batch_size _ hstopj, if_pos hcond]
  have hfull : decodeLoop d endToken batch_size primeToken h0 s0
      = stateAt d endToken batch_size primeToken h0 s0 (j+1) := by
    unfold decodeLoop
    have hsplit : generate_len = (generate_len - (j+1)) + (j+1) := by
      unfold generate_len at hj ⊢
      omega
    rw [hsplit]
    show (decodeIter d endToken batch_size)^[(generate_len - (j+1)) + (j+1)]
        (initState primeToken h0 s0) = _
    rw [Function.iterate_add_apply]
    exact iterate_stopped d endToken batch_size _ hstopped1 _
  refine ⟨by rw [hfull]; exact hstopped1, ?_, ?_, ?_⟩
  · rw [hfull, hstep, decodeIter_active d endToken batch_size _ hstopj, if_pos hcond]
    show (stateAt d endToken batch_size primeToken h0 s0 j).generatedSeq
        ++ [(d.next (stateAt d endToken batch_size primeToken h0 s0 j).inputToken
              (stateAt d endToken batch_size primeToken h0 s0 j).hidden
              (stateAt d endToken batch_size primeToken h0 s0 j).stack).1] = _
    rw [htop]
  · rw [hfull, hstep, decodeIter_active d endToken batch_size _ hstopj, if_pos hcond]
    exact hmolsj
  · rw [hfull, hstep, decodeIter_active d endToken batch_size _ hstopj, if_pos hcond]
    show (stateAt d endToken batch_size primeToken h0 s0 j).molecules_numerical.length = j
    rw [hmolsj]
    simp

/-- Concrete decoder that never samples the end token 0. -/
def decoderInc : DecoderModel ℕ ℕ := ⟨fun t h s => (t + 1, h, s)⟩

/-- Concrete decoder that immediately samples token 5. -/
def decoderEnd : DecoderModel ℕ ℕ := ⟨fun _ h s => (5, h, s)⟩

/-- C3 witness: a concrete run respects the 1 + generate_len bound. -/
theorem decoding_loop_token_bound_witness :
    (decodeLoop decoderInc 0 batch_size 1 0 0).generatedSeq.length ≤ 1 + generate_len :=
  (decoding_loop_token_bound decoderInc 0 1 0 0).2.2

/-- C10 witness: when the very first sampled token is the end token, nothing
is ever appended to molecules_numerical. -/
theorem early_stop_excludes_final_witness :
    (decodeLoop decoderEnd 5 batch_size 7 0 0).molecules_numerical.length = 0 ∧
    (decodeLoop decoderEnd 5 batch_size 7 0 0).stopped = true := by
  have h := early_stop_excludes_final decoderEnd 5 7 0 0 0 (by decide)
    (fun i hi => absurd hi (Nat.not_lt_zero i)) rfl
  exact ⟨h.2.2.2, h.1⟩

end Visum
